import Mathlib

/-!
Verification of the halotools `UserSuppliedHaloCatalog` validation and
cache-registration subsystem.  The productive code under test
(`sim_manager/user_supplied_halo_catalog.py`, `sim_manager/halo_table_cache.py`,
`custom_exceptions.py`) is exercised by
`sim_manager/tests/test_user_supplied_halo_catalog.py`; the validation and
registration logic itself is modelled here from the specification, with the
exact error/warning message fragments taken from the test suite.
-/

namespace Halotools

/-- Modelled from the spec: a Python numeric scalar as accepted for `Lbox`,
`particle_mass` and the stored `redshift` — either a true float or an int
(the code in `user_supplied_halo_catalog.py` is absent from the sources;
only its tests are available). -/
inductive PyNum where
  | float (q : ℚ)
  | int (n : ℤ)
deriving DecidableEq

/-- Numeric value of a scalar, used for the positional bound comparison. -/
def PyNum.toRat : PyNum → ℚ
  | .float q => q
  | .int n => (n : ℚ)

/-- Modelled from the spec: a Python value supplied as a keyword argument to
the missing `UserSuppliedHaloCatalog.__init__`: a float, an int, a string,
a numeric ndarray (length-N sequence), or an object whose string conversion
raises (the `Dummy` object of the tests). -/
inductive PyVal where
  | float (q : ℚ)
  | int (n : ℤ)
  | str (s : String)
  | arr (xs : List ℚ)
  | blob
deriving DecidableEq

/-- Modelled from the spec: the single exception type `HalotoolsError` of the
missing `custom_exceptions.py`; every validation or registration failure
carries only a human-readable `message`. -/
structure HalotoolsError where
  message : String
deriving DecidableEq

/-- Decidable equality for `Except`, so that concrete runs of the validator
can be checked by evaluation. -/
instance {α β : Type} [DecidableEq α] [DecidableEq β] : DecidableEq (Except α β)
  | .error a, .error b =>
    if h : a = b then .isTrue (congrArg Except.error h)
    else .isFalse (fun hc => h (Except.error.inj hc))
  | .error _, .ok _ => .isFalse (fun hc => Except.noConfusion hc)
  | .ok _, .error _ => .isFalse (fun hc => Except.noConfusion hc)
  | .ok a, .ok b =>
    if h : a = b then .isTrue (congrArg Except.ok h)
    else .isFalse (fun hc => h (Except.ok.inj hc))

/- ## Character-list string machinery (executable substring tests) -/

/-- `chPre n h` decides whether the character list `n` is an initial segment
of `h`. -/
def chPre : List Char → List Char → Bool
  | [], _ => true
  | _ :: _, [] => false
  | n :: ns, h :: hs => n == h && chPre ns hs

/-- `chSub n h` decides whether `n` occurs contiguously inside `h`. -/
def chSub (needle : List Char) : List Char → Bool
  | [] => needle.isEmpty
  | c :: rest => chPre needle (c :: rest) || chSub needle rest

/-- Substring test on strings: `strContains hay pat` holds when `pat` occurs
contiguously in `hay`. -/
def strContains (hay pat : String) : Bool :=
  chSub pat.data hay.data

/-- Startswith test on strings, mirroring Python `key[:5] == 'halo_'`. -/
def strStarts (s pre : String) : Bool :=
  chPre pre.data s.data

/-- Endswith test on strings, mirroring Python `fname[-5:] == '.hdf5'`. -/
def strEnds (s suf : String) : Bool :=
  chPre suf.data.reverse s.data.reverse

/-- Association-list lookup over string keys (first binding wins, as in a
Python dict built left to right). -/
def alookup {β : Type} (k : String) : List (String × β) → Option β
  | [] => none
  | (k2, v) :: rest => if k = k2 then some v else alookup k rest

/- ## Error and warning messages -/

/-- MissingRequiredArgument: a required scalar keyword argument was omitted. -/
def missingArgMsg (name : String) : String :=
  "MissingRequiredArgument: the ``" ++ name ++ "`` keyword argument is required."

/-- MissingRequiredColumn: a required halo-table column was omitted. -/
def missingColMsg (name : String) : String :=
  "MissingRequiredColumn: the ``" ++ name ++ "`` column must be part of the halo table."

/-- MissingRequiredColumn for the mass-like column requirement. -/
def noMassColMsg : String :=
  "MissingRequiredColumn: at least one column storing a mass-like variable is required."

/-- TypeValidationError for a non-float redshift; substring fixed by
`test_redshift_is_float`. -/
def redshiftTypeMsg : String :=
  "The ``redshift`` metadata must be a float."

/-- MissingRequiredArgument for an omitted redshift. -/
def redshiftMissingMsg : String :=
  "MissingRequiredArgument: the ``redshift`` keyword argument is required."

/-- PositionOutOfBounds: names the offending axis and index. -/
def oobMsg (axis : String) (i : Nat) : String :=
  "PositionOutOfBounds: the ``" ++ axis ++ "`` column has an entry out of bounds at index " ++ toString i ++ "."

/-- TypeValidationError for a `ptcl_table` that is not an Astropy Table. -/
def ptclTypeMsg : String :=
  "TypeValidationError: the ``ptcl_table`` must be an Astropy Table object, not a Numpy recarray."

/-- MissingRequiredColumn for a `ptcl_table` missing `x`, `y` or `z`. -/
def ptclColMsg (name : String) : String :=
  "MissingRequiredColumn: the ``" ++ name ++ "`` column must appear in the ptcl_table."

/-- InsufficientParticleCount: fewer than 10000 particles supplied. -/
def insufficientMsg : String :=
  "InsufficientParticleCount: the ``ptcl_table`` must contain at least 10000 particles."

/-- Warning emitted when a length-Nhalos array lacks the halo column naming
convention; substring fixed by `test_halo_prefix_warning`. -/
def metaWarnMsg (name : String) : String :=
  "The ``" ++ name ++ "`` keyword argument is a length-Nhalos array and will be interpreted as metadata."

/-- PathNotFoundError; substring fixed by `test_add_halocat_to_cache2`. -/
def dirMsg : String :=
  "The directory you are trying to store the file does not exist."

/-- FileExistsConflict; substring fixed by `test_add_halocat_to_cache1`. -/
def existsMsg : String :=
  "Either choose a different fname or set ``overwrite`` to True."

/-- InvalidFileExtension; substring fixed by `test_add_halocat_to_cache3`. -/
def extMsg : String :=
  "The fname must end with an ``.hdf5`` extension."

/-- MetadataTypeError; substring fixed by `test_add_halocat_to_cache4`. -/
def stringsMsg : String :=
  "The simname, halo_finder, version_name and processing_notes must all be strings."

/-- MetadataTypeError for an extra metadata keyword; substring fixed by
`test_add_halocat_to_cache5`. -/
def kwMsg (name : String) : String :=
  "The ``" ++ name ++ "`` keyword is not representable as a string."

/-- EntryNotFoundError raised by the cache log removal. -/
def entryNotFoundMsg : String :=
  "EntryNotFoundError: no matching entry in the cache log."

/- ## Keyword-argument classification (spec section 4.1 step 3) -/

/-- Modelled from the spec: a keyword becomes a halo-table column exactly
when its value is a length-N array and its name starts with `halo_`. -/
def haloColEntry (N : Nat) (kv : String × PyVal) : Option (String × List ℚ) :=
  match kv.2 with
  | .arr xs => if xs.length = N ∧ strStarts kv.1 "halo_" = true then some (kv.1, xs) else none
  | _ => none

/-- The halo table assembled from the keyword arguments. -/
def haloTableOf (N : Nat) (kwargs : List (String × PyVal)) : List (String × List ℚ) :=
  kwargs.filterMap (haloColEntry N)

/-- A keyword is metadata exactly when it is not a halo column. -/
def isMetaEntry (N : Nat) (kv : String × PyVal) : Bool :=
  (haloColEntry N kv).isNone

/-- The metadata mapping assembled from the keyword arguments. -/
def metadataOf (N : Nat) (kwargs : List (String × PyVal)) : List (String × PyVal) :=
  kwargs.filter (isMetaEntry N)

/-- Modelled from the spec: a length-N array whose name lacks the `halo_`
naming convention is stored as metadata but triggers a cautionary warning. -/
def metaWarning (N : Nat) (kv : String × PyVal) : Option String :=
  match kv.2 with
  | .arr xs =>
    if xs.length = N ∧ strStarts kv.1 "halo_" = false then some (metaWarnMsg kv.1) else none
  | _ => none

/-- All warnings emitted while classifying the keyword arguments. -/
def warningsOf (N : Nat) (kwargs : List (String × PyVal)) : List String :=
  kwargs.filterMap (metaWarning N)

/- ## Positional bound check (spec section 4.1 step 6) -/

/-- Index (counting from `k`) of the first entry violating `0 ≤ v < L`. -/
def firstOOB (L : ℚ) : Nat → List ℚ → Option Nat
  | _, [] => none
  | i, v :: rest => if v < 0 ∨ L ≤ v then some i else firstOOB L (i + 1) rest

/-- First out-of-bounds (axis, index) over the three position columns,
checked in the order `halo_x`, `halo_y`, `halo_z`. -/
def boundsCheck (L : ℚ) (hx hy hz : List ℚ) : Option (String × Nat) :=
  match firstOOB L 0 hx with
  | some i => some ("halo_x", i)
  | none =>
    match firstOOB L 0 hy with
    | some i => some ("halo_y", i)
    | none =>
      match firstOOB L 0 hz with
      | some i => some ("halo_z", i)
      | none => none

/-- Does some halo-table column name contain the substring `mass`? -/
def hasMassCol (ht : List (String × List ℚ)) : Bool :=
  ht.any (fun kv => strContains kv.1 "mass")

/- ## Particle table validation (spec section 4.1 step 7) -/

/-- Modelled from the spec: the `ptcl_table` argument either is an Astropy
Table (a named-column tabular object, the same abstract kind as the halo
table) or a raw Numpy record array. -/
inductive PtclInput where
  | astropyTable (cols : List (String × List ℚ))
  | recarray (cols : List (String × List ℚ))
deriving DecidableEq

/-- Modelled from the spec: validate an optional `ptcl_table` — reject a
non-Table representation, require `x`, `y`, `z` columns, and require at
least 10000 rows. -/
def ptclStage : Option PtclInput → Except HalotoolsError (Option (List (String × List ℚ)))
  | none => .ok none
  | some (.recarray _) => .error ⟨ptclTypeMsg⟩
  | some (.astropyTable cols) =>
    match alookup "x" cols with
    | none => .error ⟨ptclColMsg "x"⟩
    | some xcol =>
      match alookup "y" cols with
      | none => .error ⟨ptclColMsg "y"⟩
      | some _ =>
        match alookup "z" cols with
        | none => .error ⟨ptclColMsg "z"⟩
        | some _ =>
          if 10000 ≤ xcol.length then .ok (some cols) else .error ⟨insufficientMsg⟩

/- ## Catalog construction -/

/-- Modelled from the spec: a cache log entry keyed by
(simname, halo_finder, version_name, redshift, fname). -/
structure CacheLogEntry where
  simname : String
  halo_finder : String
  version_name : String
  redshift : ℚ
  fname : String
deriving DecidableEq

/-- Modelled from the spec: the validated `UserSuppliedHaloCatalog` object:
halo table, required scalar metadata, free-form metadata, the optional
particle table (`none` models absence of the attribute altogether), and the
`log_entry` attribute set by cache registration. -/
structure HaloCatalog where
  halo_table : List (String × List ℚ)
  Lbox : PyNum
  particle_mass : PyNum
  redshift : ℚ
  metadata : List (String × PyVal)
  ptcl_table : Option (List (String × List ℚ))
  log_entry : Option CacheLogEntry
deriving DecidableEq

/-- Modelled from the spec: the full keyword surface of the missing
`UserSuppliedHaloCatalog.__init__`: the recognized scalars, the optional
particle table, and all remaining keyword arguments in call order. -/
structure ConstructArgs where
  Lbox : Option PyNum
  particle_mass : Option PyNum
  redshift : Option PyVal
  ptcl_table : Option PtclInput
  kwargs : List (String × PyVal)
deriving DecidableEq

/-- Second half of construction, after the scalar checks: classify the
keyword arguments, enforce the required columns, the mass-like column, the
positional bounds and the particle table, then assemble the catalog. -/
def buildCatalog (a : ConstructArgs) (L P : PyNum) (z : ℚ) (ids : List ℚ) :
    Except HalotoolsError (HaloCatalog × List String) :=
  let N := ids.length
  let ht := haloTableOf N a.kwargs
  match alookup "halo_x" ht with
  | none => .error ⟨missingColMsg "halo_x"⟩
  | some hx =>
    match alookup "halo_y" ht with
    | none => .error ⟨missingColMsg "halo_y"⟩
    | some hy =>
      match alookup "halo_z" ht with
      | none => .error ⟨missingColMsg "halo_z"⟩
      | some hz =>
        match hasMassCol ht with
        | false => .error ⟨noMassColMsg⟩
        | true =>
          match boundsCheck L.toRat hx hy hz with
          | some p => .error ⟨oobMsg p.1 p.2⟩
          | none =>
            match ptclStage a.ptcl_table with
            | .error e => .error e
            | .ok pt =>
              .ok ({ halo_table := ht, Lbox := L, particle_mass := P, redshift := z,
                     metadata := metadataOf N a.kwargs, ptcl_table := pt,
                     log_entry := none }, warningsOf N a.kwargs)

/-- Modelled from the spec: the constructor of `UserSuppliedHaloCatalog`
(file `sim_manager/user_supplied_halo_catalog.py`, absent from the sources).
Checks run fail-fast in the spec's order: required scalar arguments, the
strict float check on redshift, the `halo_id` column (which fixes N),
keyword classification, required columns, mass-like column, positional
bounds, particle table.  On success it returns the catalog together with
the list of emitted non-fatal warnings. -/
def UserSuppliedHaloCatalog (a : ConstructArgs) :
    Except HalotoolsError (HaloCatalog × List String) :=
  match a.Lbox with
  | none => .error ⟨missingArgMsg "Lbox"⟩
  | some L =>
    match a.particle_mass with
    | none => .error ⟨missingArgMsg "particle_mass"⟩
    | some P =>
      match a.redshift with
      | none => .error ⟨redshiftMissingMsg⟩
      | some zv =>
        match zv with
        | .float z =>
          match alookup "halo_id" a.kwargs with
          | some (.arr ids) => buildCatalog a L P z ids
          | _ => .error ⟨missingColMsg "halo_id"⟩
        | _ => .error ⟨redshiftTypeMsg⟩

/-- Append one extra keyword argument to a construction call. -/
def extendKwargs (a : ConstructArgs) (k : String) (v : PyVal) : ConstructArgs :=
  { a with kwargs := a.kwargs ++ [(k, v)] }

/- ## Cache registration (spec section 4.2) -/

/-- Modelled from the spec: the observable filesystem state — the set of
existing directories and the set of existing files. -/
structure FileSystem where
  dirs : List String
  files : List String
deriving DecidableEq

/-- Modelled from the spec: filesystem plus the persistent cache log of
`halo_table_cache.py` (absent from the sources), an ordered sequence of
entries. -/
structure CacheState where
  fs : FileSystem
  log : List CacheLogEntry
deriving DecidableEq

/-- Directory part of a path: everything before the final `/`. -/
def dirname (s : String) : String :=
  String.mk ((((s.data.reverse).dropWhile (fun c => !(c == '/'))).drop 1).reverse)

/-- Modelled from the spec: Python `str(value)` — `none` when the value's
string conversion raises. -/
def ratRepr (q : ℚ) : String :=
  toString q.num ++ "/" ++ toString q.den

/-- String conversion of a Python value; fails only on the object whose
`__str__` raises. -/
def pyStr : PyVal → Option String
  | .float q => some (ratRepr q)
  | .int n => some (toString n)
  | .str s => some s
  | .arr xs => some (String.intercalate ", " (xs.map ratRepr))
  | .blob => none

/-- First extra metadata keyword whose value is not representable as a
string. -/
def firstBadKw : List (String × PyVal) → Option String
  | [] => none
  | (k, v) :: rest =>
    match pyStr v with
    | none => some k
    | some _ => firstBadKw rest

/-- Add a file to the filesystem file set (idempotent). -/
def insertFile (f : String) (files : List String) : List String :=
  if f ∈ files then files else files ++ [f]

/-- The positional and keyword arguments of `add_halocat_to_cache`. -/
structure CacheArgs where
  fname : String
  simname : PyVal
  halo_finder : PyVal
  version_name : PyVal
  processing_notes : PyVal
  overwrite : Bool
  extra_metadata : List (String × PyVal)
deriving DecidableEq

/-- Modelled from the spec: `UserSuppliedHaloCatalog.add_halocat_to_cache`
(absent from the sources).  Checks run in order: parent directory
existence, file-existence conflict (skipped when `overwrite` is true),
`.hdf5` extension, string representability of the four identifying
arguments, string representability of each extra metadata keyword; then
the file is written, the log entry appended, and the entry stored on the
catalog as `log_entry`. -/
def add_halocat_to_cache (c : HaloCatalog) (st : CacheState) (r : CacheArgs) :
    Except HalotoolsError (HaloCatalog × CacheState) :=
  match st.fs.dirs.contains (dirname r.fname) with
  | false => .error ⟨dirMsg⟩
  | true =>
  match st.fs.files.contains r.fname && !r.overwrite with
  | true => .error ⟨existsMsg⟩
  | false =>
  match strEnds r.fname ".hdf5" with
  | false => .error ⟨extMsg⟩
  | true =>
    match pyStr r.simname, pyStr r.halo_finder, pyStr r.version_name, pyStr r.processing_notes with
    | some sim, some hf, some vn, some _ =>
      match firstBadKw r.extra_metadata with
      | some k => .error ⟨kwMsg k⟩
      | none =>
        let entry : CacheLogEntry :=
          { simname := sim, halo_finder := hf, version_name := vn,
            redshift := c.redshift, fname := r.fname }
        .ok ({ c with log_entry := some entry },
             { fs := { dirs := st.fs.dirs, files := insertFile r.fname st.fs.files },
               log := st.log ++ [entry] })
    | _, _, _, _ => .error ⟨stringsMsg⟩

/-- Does a log entry match the identifying 5-tuple key? -/
def keyMatches (sim hf vn : String) (z : ℚ) (fn : String) (e : CacheLogEntry) : Bool :=
  decide (e.simname = sim ∧ e.halo_finder = hf ∧ e.version_name = vn ∧ e.redshift = z ∧ e.fname = fn)

/-- Modelled from the spec: `HaloTableCache.remove_entry_from_cache_log`
(file `sim_manager/halo_table_cache.py`, absent from the sources).  With
`raise_non_existence_exception` true and no matching entry it raises;
otherwise it drops every entry matching the key and, when
`delete_corresponding_halo_catalog` is true, also deletes the backing file.
The `update_ascii` flag only controls flushing of the persistent index,
which this single-state model always performs. -/
def remove_entry_from_cache_log (st : CacheState) (sim hf vn : String) (z : ℚ) (fn : String)
    (raise_non_existence_exception : Bool) (update_ascii : Bool)
    (delete_corresponding_halo_catalog : Bool) : Except HalotoolsError CacheState :=
  match raise_non_existence_exception && !(st.log.any (keyMatches sim hf vn z fn)) with
  | true => .error ⟨entryNotFoundMsg⟩
  | false =>
    .ok { fs := { dirs := st.fs.dirs,
                  files := match delete_corresponding_halo_catalog with
                    | true => st.fs.files.filter (fun f => !(decide (f = fn)))
                    | false => st.fs.files },
          log := st.log.filter (fun e => !(keyMatches sim hf vn z fn e)) }

end Halotools

namespace Halotools

/- ## Witness fixtures -/

/-- Keyword arguments of a small well-formed construction call: two halos
with ids, positions and masses, mirroring the test fixture. -/
def wKwargs : List (String × PyVal) :=
  [("halo_id", .arr [0, 1]), ("halo_x", .arr [1, 2]), ("halo_y", .arr [3, 4]),
   ("halo_z", .arr [5, 6]), ("halo_mass", .arr [10, 11])]

/-- A small well-formed construction call (`Lbox = 200`, `particle_mass = 100`
supplied as integers, `redshift = 0.0`), mirroring `test_successful_load`. -/
def wArgs : ConstructArgs :=
  { Lbox := some (.int 200), particle_mass := some (.int 100),
    redshift := some (.float 0), ptcl_table := none, kwargs := wKwargs }

/-- The catalog produced by the fixture call `wArgs`. -/
def wCat : HaloCatalog :=
  { halo_table := [("halo_id", [0, 1]), ("halo_x", [1, 2]), ("halo_y", [3, 4]),
                   ("halo_z", [5, 6]), ("halo_mass", [10, 11])],
    Lbox := .int 200, particle_mass := .int 100, redshift := 0,
    metadata := [], ptcl_table := none, log_entry := none }

/-- The fixture call with one `halo_x` entry moved outside the box
(`250 ≥ Lbox = 200`), mirroring `test_positions_contained_inside_lbox`. -/
def wArgsOOB : ConstructArgs :=
  { wArgs with kwargs := [("halo_id", .arr [0, 1]), ("halo_x", .arr [1, 250]),
      ("halo_y", .arr [3, 4]), ("halo_z", .arr [5, 6]), ("halo_mass", .arr [10, 11])] }

/-- A valid particle table fixture with exactly 10000 rows. -/
def wPtclCols : List (String × List ℚ) :=
  [("x", List.replicate 10000 0), ("y", List.replicate 10000 0),
   ("z", List.replicate 10000 0)]

/-- An undersized particle table fixture with 1000 rows. -/
def wPtclSmall : List (String × List ℚ) :=
  [("x", List.replicate 1000 0), ("y", List.replicate 1000 0),
   ("z", List.replicate 1000 0)]

/-- A particle table fixture missing the `z` column. -/
def wPtclNoZ : List (String × List ℚ) :=
  [("x", [0]), ("y", [0])]

/-- A cache state whose cache directory exists and is empty. -/
def wState : CacheState :=
  { fs := { dirs := ["/tmp/cache"], files := [] }, log := [] }

/-- Registration arguments mirroring `test_add_halocat_to_cache6`. -/
def wCacheArgs : CacheArgs :=
  { fname := "/tmp/cache/abc.hdf5", simname := .str "dummy_simname",
    halo_finder := .str "dummy_halo_finder", version_name := .str "dummy_version_name",
    processing_notes := .str "dummy processing notes", overwrite := false,
    extra_metadata := [("some_additional_metadata", .str "dummy processing notes")] }

/-- The cache state in which the extensionless file `abc` already exists. -/
def wStateAbc : CacheState :=
  { fs := { dirs := ["/tmp/cache"], files := ["/tmp/cache/abc"] }, log := [] }

/-- Registration arguments naming the already-existing extensionless file. -/
def wCacheArgsAbc : CacheArgs :=
  { wCacheArgs with fname := "/tmp/cache/abc" }

/- ## Helper lemmas: substring machinery -/

theorem chPre_self_append (n r : List Char) : chPre n (n ++ r) = true := by
  induction n with
  | nil => rfl
  | cons c t ih => simp [chPre, ih]

theorem chSub_nil_needle (h : List Char) : chSub [] h = true := by
  induction h with
  | nil => rfl
  | cons c t ih => simp [chSub, chPre]

theorem chSub_append_right (l n r : List Char) (h : chSub n r = true) :
    chSub n (l ++ r) = true := by
  induction l with
  | nil => simpa using h
  | cons c t ih =>
    rw [List.cons_append]
    show (chPre n (c :: (t ++ r)) || chSub n (t ++ r)) = true
    rw [ih]
    simp

theorem chSub_self_append (n r : List Char) : chSub n (n ++ r) = true := by
  cases n with
  | nil => exact chSub_nil_needle r
  | cons c t =>
    have h1 : chPre (c :: t) ((c :: t) ++ r) = true := chPre_self_append (c :: t) r
    show (chPre (c :: t) ((c :: t) ++ r) || chSub (c :: t) (t ++ r)) = true
    rw [h1]
    simp

theorem strData_append (a b : String) : (a ++ b).data = a.data ++ b.data := rfl

theorem metaWarn_contains (k : String) :
    strContains (metaWarnMsg k) "interpreted as metadata" = true := by
  have h : (metaWarnMsg k).data =
      "The ``".data ++ (k.data ++
        "`` keyword argument is a length-Nhalos array and will be interpreted as metadata.".data) := by
    simp [metaWarnMsg, strData_append]
  rw [strContains, h]
  apply chSub_append_right
  apply chSub_append_right
  decide

theorem kwMsg_contains_pattern (k : String) :
    strContains (kwMsg k) "keyword is not representable as a string." = true := by
  have h : (kwMsg k).data =
      "The ``".data ++ (k.data ++ "`` keyword is not representable as a string.".data) := by
    simp [kwMsg, strData_append]
  rw [strContains, h]
  apply chSub_append_right
  apply chSub_append_right
  decide

theorem kwMsg_contains_keyword (k : String) : strContains (kwMsg k) k = true := by
  have h : (kwMsg k).data =
      "The ``".data ++ (k.data ++ "`` keyword is not representable as a string.".data) := by
    simp [kwMsg, strData_append]
  rw [strContains, h]
  apply chSub_append_right
  exact chSub_self_append _ _

theorem kwMsg_ne_existsMsg (k : String) : kwMsg k ≠ existsMsg := by
  intro h
  have h1 : (kwMsg k).data.head? = some 'T' := rfl
  have h2 : existsMsg.data.head? = some 'E' := rfl
  rw [h] at h1
  exact absurd (h1.symm.trans h2) (by decide)

/- ## Helper lemmas: association lists -/

theorem alookup_append_left {β : Type} (k : String) (l₁ l₂ : List (String × β)) (v : β)
    (h : alookup k l₁ = some v) : alookup k (l₁ ++ l₂) = some v := by
  induction l₁ with
  | nil => simp [alookup] at h
  | cons kv rest ih =>
    obtain ⟨k2, v2⟩ := kv
    by_cases hk : k = k2
    · simp only [alookup, if_pos hk] at h
      simp only [List.cons_append, alookup, if_pos hk]
      exact h
    · simp only [alookup, if_neg hk] at h
      simp only [List.cons_append, alookup, if_neg hk]
      exact ih h

theorem alookup_append_none {β : Type} (k : String) (l₁ l₂ : List (String × β))
    (h : alookup k l₁ = none) : alookup k (l₁ ++ l₂) = alookup k l₂ := by
  induction l₁ with
  | nil => simp
  | cons kv rest ih =>
    obtain ⟨k2, v2⟩ := kv
    by_cases hk : k = k2
    · simp only [alookup, if_pos hk] at h; cases h
    · simp only [alookup, if_neg hk] at h
      simp only [List.cons_append, alookup, if_neg hk]
      exact ih h

theorem alookup_filter_none {β : Type} (k : String) (p : String × β → Bool)
    (l : List (String × β)) (h : alookup k l = none) :
    alookup k (l.filter p) = none := by
  induction l with
  | nil => simp [alookup]
  | cons kv rest ih =>
    obtain ⟨k2, v2⟩ := kv
    by_cases hk : k = k2
    · simp only [alookup, if_pos hk] at h; cases h
    · simp only [alookup, if_neg hk] at h
      rw [List.filter_cons]
      by_cases hp : p (k2, v2) = true
      · simp only [if_pos hp, alookup, if_neg hk]
        exact ih h
      · simp only [hp]
        simpa using ih h

theorem haloColEntry_key (N : Nat) (kv : String × PyVal) (p : String × List ℚ)
    (h : haloColEntry N kv = some p) : p.1 = kv.1 := by
  obtain ⟨k, v⟩ := kv
  cases v <;> simp [haloColEntry] at h
  rw [← h.2]

theorem alookup_haloTable_none (N : Nat) (k : String) (kwargs : List (String × PyVal))
    (h : alookup k kwargs = none) : alookup k (haloTableOf N kwargs) = none := by
  induction kwargs with
  | nil => simp [haloTableOf, alookup]
  | cons kv rest ih =>
    obtain ⟨k2, v2⟩ := kv
    by_cases hk : k = k2
    · simp only [alookup, if_pos hk] at h; cases h
    · simp only [alookup, if_neg hk] at h
      simp only [haloTableOf, List.filterMap_cons]
      rcases hce : haloColEntry N (k2, v2) with _ | p
      · exact ih h
      · have hp1 := haloColEntry_key N (k2, v2) p hce
        obtain ⟨pk, pv⟩ := p
        simp only at hp1
        subst hp1
        simp only [alookup, if_neg hk]
        exact ih h

end Halotools

namespace Halotools

/- ## Helper lemmas: positional bound check -/

theorem firstOOB_none_iff (L : ℚ) (k : Nat) (xs : List ℚ) :
    firstOOB L k xs = none ↔ ∀ v ∈ xs, 0 ≤ v ∧ v < L := by
  induction xs generalizing k with
  | nil => simp [firstOOB]
  | cons v rest ih =>
    simp only [firstOOB]
    by_cases hv : v < 0 ∨ L ≤ v
    · rw [if_pos hv]
      constructor
      · intro h; exact absurd h (by simp)
      · intro h
        exfalso
        have hm := h v (List.mem_cons_self v rest)
        rcases hv with hv | hv
        · exact absurd hv (not_lt.mpr hm.1)
        · exact absurd hv (not_le.mpr hm.2)
    · rw [if_neg hv, ih]
      push_neg at hv
      constructor
      · intro h w hw
        rcases List.mem_cons.mp hw with rfl | hw2
        · exact hv
        · exact h w hw2
      · intro h w hw
        exact h w (List.mem_cons_of_mem v hw)

theorem firstOOB_some (L : ℚ) (i : Nat) (xs : List ℚ) :
    ∀ k, firstOOB L k xs = some i →
      k ≤ i ∧ ∃ v, xs[(i - k)]? = some v ∧ (v < 0 ∨ L ≤ v) := by
  induction xs with
  | nil => intro k h; simp [firstOOB] at h
  | cons v rest ih =>
    intro k h
    simp only [firstOOB] at h
    by_cases hv : v < 0 ∨ L ≤ v
    · rw [if_pos hv] at h
      injection h with h
      subst h
      exact ⟨le_refl k, v, by simp, hv⟩
    · rw [if_neg hv] at h
      obtain ⟨hk, w, hw, hbad⟩ := ih (k + 1) h
      refine ⟨le_trans (Nat.le_succ k) hk, w, ?_, hbad⟩
      have hik : i - k = (i - (k + 1)) + 1 := by omega
      rw [hik]
      simpa using hw

theorem boundsCheck_none_inv (L : ℚ) (hx hy hz : List ℚ)
    (h : boundsCheck L hx hy hz = none) :
    firstOOB L 0 hx = none ∧ firstOOB L 0 hy = none ∧ firstOOB L 0 hz = none := by
  unfold boundsCheck at h
  rcases h1 : firstOOB L 0 hx with _ | i <;> rw [h1] at h
  · rcases h2 : firstOOB L 0 hy with _ | i <;> rw [h2] at h
    · rcases h3 : firstOOB L 0 hz with _ | i <;> rw [h3] at h
      · exact ⟨rfl, rfl, rfl⟩
      · cases h
    · cases h
  · cases h

theorem boundsCheck_some_inv (L : ℚ) (hx hy hz : List ℚ) (ax : String) (i : Nat)
    (h : boundsCheck L hx hy hz = some (ax, i)) :
    (ax = "halo_x" ∧ firstOOB L 0 hx = some i) ∨
    (ax = "halo_y" ∧ firstOOB L 0 hy = some i) ∨
    (ax = "halo_z" ∧ firstOOB L 0 hz = some i) := by
  unfold boundsCheck at h
  rcases h1 : firstOOB L 0 hx with _ | j <;> rw [h1] at h
  · rcases h2 : firstOOB L 0 hy with _ | j <;> rw [h2] at h
    · rcases h3 : firstOOB L 0 hz with _ | j <;> rw [h3] at h
      · cases h
      · injection h with h
        have ha : ax = "halo_z" := (congrArg Prod.fst h).symm
        have hb : i = j := (congrArg Prod.snd h).symm
        subst ha
        subst hb
        exact Or.inr (Or.inr ⟨rfl, rfl⟩)
    · injection h with h
      have ha : ax = "halo_y" := (congrArg Prod.fst h).symm
      have hb : i = j := (congrArg Prod.snd h).symm
      subst ha
      subst hb
      exact Or.inr (Or.inl ⟨rfl, rfl⟩)
  · injection h with h
    have ha : ax = "halo_x" := (congrArg Prod.fst h).symm
    have hb : i = j := (congrArg Prod.snd h).symm
    subst ha
    subst hb
    exact Or.inl ⟨rfl, rfl⟩

/- ## Helper lemmas: extra cache metadata -/

theorem firstBadKw_some (l : List (String × PyVal)) (k : String)
    (h : firstBadKw l = some k) : ∃ v, (k, v) ∈ l ∧ pyStr v = none := by
  induction l with
  | nil => simp [firstBadKw] at h
  | cons kv rest ih =>
    obtain ⟨k2, v2⟩ := kv
    simp only [firstBadKw] at h
    rcases hv : pyStr v2 with _ | s <;> rw [hv] at h
    · injection h with h
      subst h
      exact ⟨v2, List.mem_cons_self _ _, hv⟩
    · obtain ⟨v, hm, hn⟩ := ih h
      exact ⟨v, List.mem_cons_of_mem _ hm, hn⟩

/- ## Helper lemmas: inversion of a successful construction -/

theorem construct_ok_inv (a : ConstructArgs) (c : HaloCatalog) (ws : List String)
    (h : UserSuppliedHaloCatalog a = .ok (c, ws)) :
    ∃ L P z ids, a.Lbox = some L ∧ a.particle_mass = some P ∧
      a.redshift = some (.float z) ∧ alookup "halo_id" a.kwargs = some (.arr ids) ∧
      buildCatalog a L P z ids = .ok (c, ws) := by
  unfold UserSuppliedHaloCatalog at h
  rcases hL : a.Lbox with _ | L <;> rw [hL] at h
  · cases h
  rcases hP : a.particle_mass with _ | P <;> rw [hP] at h
  · cases h
  rcases hz : a.redshift with _ | zv <;> rw [hz] at h
  · cases h
  cases zv <;> try cases h
  case float z =>
  rcases hid : alookup "halo_id" a.kwargs with _ | v <;> rw [hid] at h
  · cases h
  cases v <;> try cases h
  case arr ids =>
  exact ⟨L, P, z, ids, rfl, rfl, rfl, rfl, h⟩

theorem buildCatalog_ok_inv (a : ConstructArgs) (L P : PyNum) (z : ℚ) (ids : List ℚ)
    (c : HaloCatalog) (ws : List String) (h : buildCatalog a L P z ids = .ok (c, ws)) :
    c.halo_table = haloTableOf ids.length a.kwargs ∧ c.Lbox = L ∧
    c.particle_mass = P ∧ c.redshift = z ∧
    c.metadata = metadataOf ids.length a.kwargs ∧
    ws = warningsOf ids.length a.kwargs ∧
    hasMassCol c.halo_table = true ∧
    (∃ hx hy hz, alookup "halo_x" c.halo_table = some hx ∧
      alookup "halo_y" c.halo_table = some hy ∧
      alookup "halo_z" c.halo_table = some hz ∧
      boundsCheck L.toRat hx hy hz = none) ∧
    ptclStage a.ptcl_table = .ok c.ptcl_table ∧ c.log_entry = none := by
  unfold buildCatalog at h
  simp only [] at h
  rcases hhx : alookup "halo_x" (haloTableOf ids.length a.kwargs) with _ | hx <;>
    rw [hhx] at h <;> simp only [] at h
  · cases h
  rcases hhy : alookup "halo_y" (haloTableOf ids.length a.kwargs) with _ | hy <;>
    rw [hhy] at h <;> simp only [] at h
  · cases h
  rcases hhz : alookup "halo_z" (haloTableOf ids.length a.kwargs) with _ | hz <;>
    rw [hhz] at h <;> simp only [] at h
  · cases h
  rcases hm : hasMassCol (haloTableOf ids.length a.kwargs) with _ | _ <;>
    rw [hm] at h <;> simp only [] at h
  case false => cases h
  case true =>
    rcases hbc : boundsCheck L.toRat hx hy hz with _ | p <;>
      rw [hbc] at h <;> simp only [] at h
    · rcases hpt : ptclStage a.ptcl_table with e | pt <;>
        rw [hpt] at h <;> simp only [] at h
      · cases h
      · injection h with h
        rw [Prod.mk.injEq] at h
        obtain ⟨hc, hws⟩ := h
        subst hc
        subst hws
        exact ⟨rfl, rfl, rfl, rfl, rfl, rfl, hm, ⟨hx, hy, hz, hhx, hhy, hhz, hbc⟩, rfl, rfl⟩
    · cases h

end Halotools


namespace Halotools

/-- C4: for every construction call whose earlier checks pass but whose
redshift is supplied as anything other than a true float — in particular a
numeric string — construction fails with the type error whose message is
exactly the one asserted by `test_redshift_is_float`, hence contains
"The ``redshift`` metadata must be a float.". -/
theorem C4_redshift_strict_float (a : ConstructArgs) (L P : PyNum) (v : PyVal)
    (hL : a.Lbox = some L) (hP : a.particle_mass = some P)
    (hz : a.redshift = some v) (hv : ∀ q : ℚ, v ≠ .float q) :
    UserSuppliedHaloCatalog a = .error ⟨redshiftTypeMsg⟩ ∧
    strContains redshiftTypeMsg "The ``redshift`` metadata must be a float." = true := by
  constructor
  · cases v
    case float q => exact absurd rfl (hv q)
    all_goals simp only [UserSuppliedHaloCatalog, hL, hP, hz]
  · decide

/-- C4 witness: the test input — redshift supplied as the numeric string
"1.0" on an otherwise well-formed call — fails with the redshift type
error. -/
theorem C4_redshift_strict_float_witness :
    UserSuppliedHaloCatalog { wArgs with redshift := some (.str "1.0") } =
      .error ⟨redshiftTypeMsg⟩ ∧
    strContains redshiftTypeMsg "The ``redshift`` metadata must be a float." = true :=
  C4_redshift_strict_float _ (.int 200) (.int 100) (.str "1.0") rfl rfl rfl
    (fun q h => PyVal.noConfusion h)

/-- C5: omitting exactly one required ingredient fails with the
corresponding error: `MissingRequiredArgument` for `Lbox` or
`particle_mass`, `MissingRequiredColumn` for `halo_id`, `halo_x`,
`halo_y`, `halo_z`, or for the absence of any mass-like column. -/
theorem C5_missing_requirements (a : ConstructArgs) :
    (a.Lbox = none → UserSuppliedHaloCatalog a = .error ⟨missingArgMsg "Lbox"⟩) ∧
    (∀ L, a.Lbox = some L → a.particle_mass = none →
      UserSuppliedHaloCatalog a = .error ⟨missingArgMsg "particle_mass"⟩) ∧
    (∀ L P z, a.Lbox = some L → a.particle_mass = some P →
      a.redshift = some (.float z) → alookup "halo_id" a.kwargs = none →
      UserSuppliedHaloCatalog a = .error ⟨missingColMsg "halo_id"⟩) ∧
    (∀ L P z ids, a.Lbox = some L → a.particle_mass = some P →
      a.redshift = some (.float z) → alookup "halo_id" a.kwargs = some (.arr ids) →
      alookup "halo_x" (haloTableOf ids.length a.kwargs) = none →
      UserSuppliedHaloCatalog a = .error ⟨missingColMsg "halo_x"⟩) ∧
    (∀ L P z ids hx, a.Lbox = some L → a.particle_mass = some P →
      a.redshift = some (.float z) → alookup "halo_id" a.kwargs = some (.arr ids) →
      alookup "halo_x" (haloTableOf ids.length a.kwargs) = some hx →
      alookup "halo_y" (haloTableOf ids.length a.kwargs) = none →
      UserSuppliedHaloCatalog a = .error ⟨missingColMsg "halo_y"⟩) ∧
    (∀ L P z ids hx hy, a.Lbox = some L → a.particle_mass = some P →
      a.redshift = some (.float z) → alookup "halo_id" a.kwargs = some (.arr ids) →
      alookup "halo_x" (haloTableOf ids.length a.kwargs) = some hx →
      alookup "halo_y" (haloTableOf ids.length a.kwargs) = some hy →
      alookup "halo_z" (haloTableOf ids.length a.kwargs) = none →
      UserSuppliedHaloCatalog a = .error ⟨missingColMsg "halo_z"⟩) ∧
    (∀ L P z ids hx hy hz, a.Lbox = some L → a.particle_mass = some P →
      a.redshift = some (.float z) → alookup "halo_id" a.kwargs = some (.arr ids) →
      alookup "halo_x" (haloTableOf ids.length a.kwargs) = some hx →
      alookup "halo_y" (haloTableOf ids.length a.kwargs) = some hy →
      alookup "halo_z" (haloTableOf ids.length a.kwargs) = some hz →
      hasMassCol (haloTableOf ids.length a.kwargs) = false →
      UserSuppliedHaloCatalog a = .error ⟨noMassColMsg⟩) := by
  refine ⟨?_, ?_, ?_, ?_, ?_, ?_, ?_⟩
  · intro hL
    simp only [UserSuppliedHaloCatalog, hL]
  · intro L hL hP
    simp only [UserSuppliedHaloCatalog, hL, hP]
  · intro L P z hL hP hz hid
    simp only [UserSuppliedHaloCatalog, hL, hP, hz, hid]
  · intro L P z ids hL hP hz hid hhx
    simp only [UserSuppliedHaloCatalog, buildCatalog, hL, hP, hz, hid, hhx]
  · intro L P z ids hx hL hP hz hid hhx hhy
    simp only [UserSuppliedHaloCatalog, buildCatalog, hL, hP, hz, hid, hhx, hhy]
  · intro L P z ids hx hy hL hP hz hid hhx hhy hhz
    simp only [UserSuppliedHaloCatalog, buildCatalog, hL, hP, hz, hid, hhx, hhy, hhz]
  · intro L P z ids hx hy hz2 hL hP hz hid hhx hhy hhz hm
    simp only [UserSuppliedHaloCatalog, buildCatalog, hL, hP, hz, hid, hhx, hhy, hhz, hm]

/-- C5 witness: each single omission, applied to the concrete fixture,
yields the corresponding error. -/
theorem C5_missing_requirements_witness :
    (UserSuppliedHaloCatalog { wArgs with Lbox := none } =
      .error ⟨missingArgMsg "Lbox"⟩) ∧
    (UserSuppliedHaloCatalog { wArgs with particle_mass := none } =
      .error ⟨missingArgMsg "particle_mass"⟩) ∧
    (UserSuppliedHaloCatalog { wArgs with kwargs := wKwargs.drop 1 } =
      .error ⟨missingColMsg "halo_id"⟩) ∧
    (UserSuppliedHaloCatalog { wArgs with kwargs := [("halo_id", .arr [0, 1]),
        ("halo_y", .arr [3, 4]), ("halo_z", .arr [5, 6]), ("halo_mass", .arr [10, 11])] } =
      .error ⟨missingColMsg "halo_x"⟩) ∧
    (UserSuppliedHaloCatalog { wArgs with kwargs := [("halo_id", .arr [0, 1]),
        ("halo_x", .arr [1, 2]), ("halo_z", .arr [5, 6]), ("halo_mass", .arr [10, 11])] } =
      .error ⟨missingColMsg "halo_y"⟩) ∧
    (UserSuppliedHaloCatalog { wArgs with kwargs := [("halo_id", .arr [0, 1]),
        ("halo_x", .arr [1, 2]), ("halo_y", .arr [3, 4]), ("halo_mass", .arr [10, 11])] } =
      .error ⟨missingColMsg "halo_z"⟩) ∧
    (UserSuppliedHaloCatalog { wArgs with kwargs := [("halo_id", .arr [0, 1]),
        ("halo_x", .arr [1, 2]), ("halo_y", .arr [3, 4]), ("halo_z", .arr [5, 6])] } =
      .error ⟨noMassColMsg⟩) :=
  ⟨(C5_missing_requirements _).1 rfl,
   (C5_missing_requirements _).2.1 (.int 200) rfl rfl,
   (C5_missing_requirements _).2.2.1 (.int 200) (.int 100) 0 rfl rfl rfl (by decide),
   (C5_missing_requirements _).2.2.2.1 (.int 200) (.int 100) 0 [0, 1] rfl rfl rfl
     (by decide) (by decide),
   (C5_missing_requirements _).2.2.2.2.1 (.int 200) (.int 100) 0 [0, 1] [1, 2] rfl rfl rfl
     (by decide) (by decide) (by decide),
   (C5_missing_requirements _).2.2.2.2.2.1 (.int 200) (.int 100) 0 [0, 1] [1, 2] [3, 4]
     rfl rfl rfl (by decide) (by decide) (by decide) (by decide),
   (C5_missing_requirements _).2.2.2.2.2.2 (.int 200) (.int 100) 0 [0, 1] [1, 2] [3, 4]
     [5, 6] rfl rfl rfl (by decide) (by decide) (by decide) (by decide) (by decide)⟩

/-- C10: the strict type check applies only to redshift — a call whose
`Lbox` and `particle_mass` are integers and whose remaining checks pass
succeeds, and the catalog stores those integer values unchanged. -/
theorem C10_integer_scalars (a : ConstructArgs) (L P : ℤ) (z : ℚ)
    (ids hx hy hz : List ℚ) (pt : Option (List (String × List ℚ)))
    (hL : a.Lbox = some (.int L)) (hP : a.particle_mass = some (.int P))
    (hzf : a.redshift = some (.float z))
    (hid : alookup "halo_id" a.kwargs = some (.arr ids))
    (hhx : alookup "halo_x" (haloTableOf ids.length a.kwargs) = some hx)
    (hhy : alookup "halo_y" (haloTableOf ids.length a.kwargs) = some hy)
    (hhz : alookup "halo_z" (haloTableOf ids.length a.kwargs) = some hz)
    (hm : hasMassCol (haloTableOf ids.length a.kwargs) = true)
    (hbc : boundsCheck (PyNum.int L).toRat hx hy hz = none)
    (hpt : ptclStage a.ptcl_table = .ok pt) :
    ∃ c ws, UserSuppliedHaloCatalog a = .ok (c, ws) ∧
      c.Lbox = .int L ∧ c.particle_mass = .int P := by
  refine ⟨{ halo_table := haloTableOf ids.length a.kwargs, Lbox := .int L,
            particle_mass := .int P, redshift := z,
            metadata := metadataOf ids.length a.kwargs,
            ptcl_table := pt, log_entry := none },
    warningsOf ids.length a.kwargs, ?_, rfl, rfl⟩
  simp only [UserSuppliedHaloCatalog, buildCatalog, hL, hP, hzf, hid, hhx, hhy, hhz, hm,
    hbc, hpt]

/-- C10 witness: the fixture with integer `Lbox = 200` and
`particle_mass = 100` succeeds and stores both integers unchanged. -/
theorem C10_integer_scalars_witness :
    ∃ c ws, UserSuppliedHaloCatalog wArgs = .ok (c, ws) ∧
      c.Lbox = .int 200 ∧ c.particle_mass = .int 100 :=
  C10_integer_scalars wArgs 200 100 0 [0, 1] [1, 2] [3, 4] [5, 6] none rfl rfl rfl
    (by decide) (by decide) (by decide) (by decide) (by decide) (by decide) rfl

end Halotools

namespace Halotools

/-- C2: every successfully constructed catalog satisfies `0 ≤ v < Lbox` on
each of the `halo_x`, `halo_y`, `halo_z` columns; and when the earlier
checks pass but some position is out of bounds, construction fails with a
`PositionOutOfBounds` error naming an axis and index at which the value is
genuinely out of bounds. -/
theorem C2_position_bounds (a : ConstructArgs) :
    (∀ c ws, UserSuppliedHaloCatalog a = .ok (c, ws) →
      ∀ ax, ax = "halo_x" ∨ ax = "halo_y" ∨ ax = "halo_z" →
      ∀ xs, alookup ax c.halo_table = some xs →
      ∀ v ∈ xs, 0 ≤ v ∧ v < c.Lbox.toRat) ∧
    (∀ L P z ids hx hy hz ax i, a.Lbox = some L → a.particle_mass = some P →
      a.redshift = some (.float z) → alookup "halo_id" a.kwargs = some (.arr ids) →
      alookup "halo_x" (haloTableOf ids.length a.kwargs) = some hx →
      alookup "halo_y" (haloTableOf ids.length a.kwargs) = some hy →
      alookup "halo_z" (haloTableOf ids.length a.kwargs) = some hz →
      hasMassCol (haloTableOf ids.length a.kwargs) = true →
      boundsCheck L.toRat hx hy hz = some (ax, i) →
      UserSuppliedHaloCatalog a = .error ⟨oobMsg ax i⟩ ∧
      ∃ col v, ((ax = "halo_x" ∧ col = hx) ∨ (ax = "halo_y" ∧ col = hy) ∨
          (ax = "halo_z" ∧ col = hz)) ∧
        col[i]? = some v ∧ (v < 0 ∨ L.toRat ≤ v)) := by
  constructor
  · intro c ws h ax hax xs hxs v hv
    obtain ⟨L, P, z, ids, hL, hP, hz2, hid, hb⟩ := construct_ok_inv a c ws h
    obtain ⟨hht, hLbox, hpm, hred, hmd, hws, hmass, hex, hps, hle⟩ :=
      buildCatalog_ok_inv a L P z ids c ws hb
    obtain ⟨hx, hy, hz, hhx, hhy, hhz, hbc⟩ := hex
    obtain ⟨b1, b2, b3⟩ := boundsCheck_none_inv L.toRat hx hy hz hbc
    rcases hax with rfl | rfl | rfl
    · rw [hhx] at hxs
      injection hxs with hxs
      subst hxs
      rw [hLbox]
      exact (firstOOB_none_iff L.toRat 0 hx).mp b1 v hv
    · rw [hhy] at hxs
      injection hxs with hxs
      subst hxs
      rw [hLbox]
      exact (firstOOB_none_iff L.toRat 0 hy).mp b2 v hv
    · rw [hhz] at hxs
      injection hxs with hxs
      subst hxs
      rw [hLbox]
      exact (firstOOB_none_iff L.toRat 0 hz).mp b3 v hv
  · intro L P z ids hx hy hz ax i hL hP hzf hid hhx hhy hhz hm hbc
    constructor
    · simp only [UserSuppliedHaloCatalog, buildCatalog, hL, hP, hzf, hid, hhx, hhy, hhz,
        hm, hbc]
    · rcases boundsCheck_some_inv L.toRat hx hy hz ax i hbc with
        ⟨hax, hfo⟩ | ⟨hax, hfo⟩ | ⟨hax, hfo⟩
      · obtain ⟨-, w, hw, hbad⟩ := firstOOB_some L.toRat i hx 0 hfo
        exact ⟨hx, w, Or.inl ⟨hax, rfl⟩, by simpa using hw, hbad⟩
      · obtain ⟨-, w, hw, hbad⟩ := firstOOB_some L.toRat i hy 0 hfo
        exact ⟨hy, w, Or.inr (Or.inl ⟨hax, rfl⟩), by simpa using hw, hbad⟩
      · obtain ⟨-, w, hw, hbad⟩ := firstOOB_some L.toRat i hz 0 hfo
        exact ⟨hz, w, Or.inr (Or.inr ⟨hax, rfl⟩), by simpa using hw, hbad⟩

/-- C2 witness: the fixture catalog satisfies the bound at a sample
position, and the fixture with `halo_x = [1, 250]` in a 200-unit box fails
with the out-of-bounds error at axis `halo_x`, index 1. -/
theorem C2_position_bounds_witness :
    (0 ≤ (1 : ℚ) ∧ (1 : ℚ) < wCat.Lbox.toRat) ∧
    (UserSuppliedHaloCatalog wArgsOOB = .error ⟨oobMsg "halo_x" 1⟩ ∧
      ∃ col v, (("halo_x" = "halo_x" ∧ col = [(1 : ℚ), 250]) ∨
          ("halo_x" = "halo_y" ∧ col = [(3 : ℚ), 4]) ∨
          ("halo_x" = "halo_z" ∧ col = [(5 : ℚ), 6])) ∧
        col[(1 : Nat)]? = some v ∧ (v < 0 ∨ (PyNum.int 200).toRat ≤ v)) :=
  ⟨(C2_position_bounds wArgs).1 wCat [] (by decide) "halo_x" (Or.inl rfl) [1, 2]
      (by decide) 1 (by decide),
   (C2_position_bounds wArgsOOB).2 (.int 200) (.int 100) 0 [0, 1] [1, 250] [3, 4] [5, 6]
      "halo_x" 1 rfl rfl rfl (by decide) (by decide) (by decide) (by decide) (by decide)
      (by decide)⟩

end Halotools

namespace Halotools

/-- C3: with all halo-side checks passing — when no `ptcl_table` is
supplied the catalog has none (`none` models the absent attribute); a
tabular `ptcl_table` with `x`,`y`,`z` columns and at least 10000 rows is
stored with the same values; fewer than 10000 rows fails with
`InsufficientParticleCount`; a missing `x`/`y`/`z` column fails with
`MissingRequiredColumn` naming a genuinely missing column; a raw record
array fails with `TypeValidationError`. -/
theorem C3_ptcl_table (a : ConstructArgs) (L P : PyNum) (z : ℚ) (ids hx hy hz : List ℚ)
    (hL : a.Lbox = some L) (hP : a.particle_mass = some P)
    (hzf : a.redshift = some (.float z))
    (hid : alookup "halo_id" a.kwargs = some (.arr ids))
    (hhx : alookup "halo_x" (haloTableOf ids.length a.kwargs) = some hx)
    (hhy : alookup "halo_y" (haloTableOf ids.length a.kwargs) = some hy)
    (hhz : alookup "halo_z" (haloTableOf ids.length a.kwargs) = some hz)
    (hm : hasMassCol (haloTableOf ids.length a.kwargs) = true)
    (hbc : boundsCheck L.toRat hx hy hz = none) :
    (a.ptcl_table = none →
      ∃ c ws, UserSuppliedHaloCatalog a = .ok (c, ws) ∧ c.ptcl_table = none) ∧
    (∀ cols xcol ycol zcol, a.ptcl_table = some (.astropyTable cols) →
      alookup "x" cols = some xcol → alookup "y" cols = some ycol →
      alookup "z" cols = some zcol → 10000 ≤ xcol.length →
      ∃ c ws, UserSuppliedHaloCatalog a = .ok (c, ws) ∧ c.ptcl_table = some cols) ∧
    (∀ cols xcol ycol zcol, a.ptcl_table = some (.astropyTable cols) →
      alookup "x" cols = some xcol → alookup "y" cols = some ycol →
      alookup "z" cols = some zcol → xcol.length < 10000 →
      UserSuppliedHaloCatalog a = .error ⟨insufficientMsg⟩) ∧
    (∀ cols, a.ptcl_table = some (.astropyTable cols) →
      (alookup "x" cols = none ∨ alookup "y" cols = none ∨ alookup "z" cols = none) →
      ∃ nm, (nm = "x" ∨ nm = "y" ∨ nm = "z") ∧ alookup nm cols = none ∧
        UserSuppliedHaloCatalog a = .error ⟨ptclColMsg nm⟩) ∧
    (∀ cols, a.ptcl_table = some (.recarray cols) →
      UserSuppliedHaloCatalog a = .error ⟨ptclTypeMsg⟩) := by
  refine ⟨?_, ?_, ?_, ?_, ?_⟩
  · intro hpt
    have hps : ptclStage a.ptcl_table = .ok none := by
      rw [hpt]
      rfl
    refine ⟨{ halo_table := haloTableOf ids.length a.kwargs, Lbox := L,
              particle_mass := P, redshift := z,
              metadata := metadataOf ids.length a.kwargs,
              ptcl_table := none, log_entry := none },
      warningsOf ids.length a.kwargs, ?_, rfl⟩
    simp only [UserSuppliedHaloCatalog, buildCatalog, hL, hP, hzf, hid, hhx, hhy, hhz,
      hm, hbc, hps]
  · intro cols xcol ycol zcol hpt h1 h2 h3 hlen
    have hps : ptclStage a.ptcl_table = .ok (some cols) := by
      rw [hpt]
      simp only [ptclStage, h1, h2, h3]
      rw [if_pos hlen]
    refine ⟨{ halo_table := haloTableOf ids.length a.kwargs, Lbox := L,
              particle_mass := P, redshift := z,
              metadata := metadataOf ids.length a.kwargs,
              ptcl_table := some cols, log_entry := none },
      warningsOf ids.length a.kwargs, ?_, rfl⟩
    simp only [UserSuppliedHaloCatalog, buildCatalog, hL, hP, hzf, hid, hhx, hhy, hhz,
      hm, hbc, hps]
  · intro cols xcol ycol zcol hpt h1 h2 h3 hlen
    have hps : ptclStage a.ptcl_table = .error ⟨insufficientMsg⟩ := by
      rw [hpt]
      simp only [ptclStage, h1, h2, h3]
      rw [if_neg (not_le.mpr hlen)]
    simp only [UserSuppliedHaloCatalog, buildCatalog, hL, hP, hzf, hid, hhx, hhy, hhz,
      hm, hbc, hps]
  · intro cols hpt hnone
    rcases h1 : alookup "x" cols with _ | xcol
    · have hps : ptclStage a.ptcl_table = .error ⟨ptclColMsg "x"⟩ := by
        rw [hpt]
        simp only [ptclStage, h1]
      refine ⟨"x", Or.inl rfl, h1, ?_⟩
      simp only [UserSuppliedHaloCatalog, buildCatalog, hL, hP, hzf, hid, hhx, hhy, hhz,
        hm, hbc, hps]
    · rcases h2 : alookup "y" cols with _ | ycol
      · have hps : ptclStage a.ptcl_table = .error ⟨ptclColMsg "y"⟩ := by
          rw [hpt]
          simp only [ptclStage, h1, h2]
        refine ⟨"y", Or.inr (Or.inl rfl), h2, ?_⟩
        simp only [UserSuppliedHaloCatalog, buildCatalog, hL, hP, hzf, hid, hhx, hhy,
          hhz, hm, hbc, hps]
      · rcases h3 : alookup "z" cols with _ | zcol
        · have hps : ptclStage a.ptcl_table = .error ⟨ptclColMsg "z"⟩ := by
            rw [hpt]
            simp only [ptclStage, h1, h2, h3]
          refine ⟨"z", Or.inr (Or.inr rfl), h3, ?_⟩
          simp only [UserSuppliedHaloCatalog, buildCatalog, hL, hP, hzf, hid, hhx, hhy,
            hhz, hm, hbc, hps]
        · exfalso
          rcases hnone with hc | hc | hc
          · rw [h1] at hc; cases hc
          · rw [h2] at hc; cases hc
          · rw [h3] at hc; cases hc
  · intro cols hpt
    have hps : ptclStage a.ptcl_table = .error ⟨ptclTypeMsg⟩ := by
      rw [hpt]
      rfl
    simp only [UserSuppliedHaloCatalog, buildCatalog, hL, hP, hzf, hid, hhx, hhy, hhz,
      hm, hbc, hps]

/-- C3 witness: on the fixture — no table gives no attribute; a 10000-row
table is stored; a 1000-row table, a table missing `z`, and a record array
each fail with the corresponding error. -/
theorem C3_ptcl_table_witness :
    (∃ c ws, UserSuppliedHaloCatalog wArgs = .ok (c, ws) ∧ c.ptcl_table = none) ∧
    (∃ c ws, UserSuppliedHaloCatalog { wArgs with
        ptcl_table := some (.astropyTable wPtclCols) } = .ok (c, ws) ∧
      c.ptcl_table = some wPtclCols) ∧
    (UserSuppliedHaloCatalog { wArgs with
        ptcl_table := some (.astropyTable wPtclSmall) } = .error ⟨insufficientMsg⟩) ∧
    (∃ nm, (nm = "x" ∨ nm = "y" ∨ nm = "z") ∧ alookup nm wPtclNoZ = none ∧
      UserSuppliedHaloCatalog { wArgs with ptcl_table := some (.astropyTable wPtclNoZ) } =
        .error ⟨ptclColMsg nm⟩) ∧
    (UserSuppliedHaloCatalog { wArgs with ptcl_table := some (.recarray wPtclNoZ) } =
      .error ⟨ptclTypeMsg⟩) :=
  ⟨(C3_ptcl_table wArgs (.int 200) (.int 100) 0 [0, 1] [1, 2] [3, 4] [5, 6] rfl rfl rfl
      (by decide) (by decide) (by decide) (by decide) (by decide) (by decide)).1 rfl,
   (C3_ptcl_table { wArgs with ptcl_table := some (.astropyTable wPtclCols) }
      (.int 200) (.int 100) 0 [0, 1] [1, 2] [3, 4] [5, 6] rfl rfl rfl
      (by decide) (by decide) (by decide) (by decide) (by decide) (by decide)).2.1
      wPtclCols (List.replicate 10000 0) (List.replicate 10000 0) (List.replicate 10000 0)
      rfl rfl rfl rfl (le_of_eq (List.length_replicate 10000 (0 : ℚ)).symm),
   (C3_ptcl_table { wArgs with ptcl_table := some (.astropyTable wPtclSmall) }
      (.int 200) (.int 100) 0 [0, 1] [1, 2] [3, 4] [5, 6] rfl rfl rfl
      (by decide) (by decide) (by decide) (by decide) (by decide) (by decide)).2.2.1
      wPtclSmall (List.replicate 1000 0) (List.replicate 1000 0) (List.replicate 1000 0)
      rfl rfl rfl rfl (by rw [List.length_replicate]; decide),
   (C3_ptcl_table { wArgs with ptcl_table := some (.astropyTable wPtclNoZ) }
      (.int 200) (.int 100) 0 [0, 1] [1, 2] [3, 4] [5, 6] rfl rfl rfl
      (by decide) (by decide) (by decide) (by decide) (by decide) (by decide)).2.2.2.1
      wPtclNoZ rfl (Or.inr (Or.inr (by decide))),
   (C3_ptcl_table { wArgs with ptcl_table := some (.recarray wPtclNoZ) }
      (.int 200) (.int 100) 0 [0, 1] [1, 2] [3, 4] [5, 6] rfl rfl rfl
      (by decide) (by decide) (by decide) (by decide) (by decide) (by decide)).2.2.2.2
      wPtclNoZ rfl⟩

end Halotools

namespace Halotools

theorem haloTableOf_append (N : Nat) (l1 l2 : List (String × PyVal)) :
    haloTableOf N (l1 ++ l2) = haloTableOf N l1 ++ haloTableOf N l2 := by
  simp [haloTableOf, List.filterMap_append]

theorem metadataOf_append (N : Nat) (l1 l2 : List (String × PyVal)) :
    metadataOf N (l1 ++ l2) = metadataOf N l1 ++ metadataOf N l2 := by
  simp [metadataOf, List.filter_append]

theorem warningsOf_append (N : Nat) (l1 l2 : List (String × PyVal)) :
    warningsOf N (l1 ++ l2) = warningsOf N l1 ++ warningsOf N l2 := by
  simp [warningsOf, List.filterMap_append]

/-- C1: extending an otherwise well-formed, warning-free construction call
with one extra length-N array keyword whose name lacks the `halo_` naming
convention succeeds, emits exactly the one warning containing
"interpreted as metadata", and stores the array in the metadata mapping,
not as a halo-table column. -/
theorem C1_halo_prefix_warning (a : ConstructArgs) (L P : PyNum) (z : ℚ)
    (ids hx hy hz : List ℚ) (pt : Option (List (String × List ℚ)))
    (s : String) (v : List ℚ)
    (hL : a.Lbox = some L) (hP : a.particle_mass = some P)
    (hzf : a.redshift = some (.float z))
    (hid : alookup "halo_id" a.kwargs = some (.arr ids))
    (hhx : alookup "halo_x" (haloTableOf ids.length a.kwargs) = some hx)
    (hhy : alookup "halo_y" (haloTableOf ids.length a.kwargs) = some hy)
    (hhz : alookup "halo_z" (haloTableOf ids.length a.kwargs) = some hz)
    (hm : hasMassCol (haloTableOf ids.length a.kwargs) = true)
    (hbc : boundsCheck L.toRat hx hy hz = none)
    (hpt : ptclStage a.ptcl_table = .ok pt)
    (hw0 : warningsOf ids.length a.kwargs = [])
    (hs : strStarts s "halo_" = false)
    (hlen : v.length = ids.length)
    (hnew : alookup s a.kwargs = none) :
    ∃ c, UserSuppliedHaloCatalog (extendKwargs a s (.arr v)) =
        .ok (c, [metaWarnMsg s]) ∧
      alookup s c.metadata = some (.arr v) ∧
      alookup s c.halo_table = none ∧
      strContains (metaWarnMsg s) "interpreted as metadata" = true := by
  have hce : haloColEntry ids.length (s, PyVal.arr v) = none := by
    simp [haloColEntry, hs]
  have hidx : alookup "halo_id" (a.kwargs ++ [(s, PyVal.arr v)]) = some (.arr ids) :=
    alookup_append_left _ _ _ _ hid
  have hht : haloTableOf ids.length (a.kwargs ++ [(s, PyVal.arr v)]) =
      haloTableOf ids.length a.kwargs := by
    rw [haloTableOf_append]
    simp [haloTableOf, hce]
  have hmw : metaWarning ids.length (s, PyVal.arr v) = some (metaWarnMsg s) := by
    simp [metaWarning, hlen, hs]
  have hws2 : warningsOf ids.length (a.kwargs ++ [(s, PyVal.arr v)]) = [metaWarnMsg s] := by
    rw [warningsOf_append, hw0]
    simp [warningsOf, hmw]
  have hmd : alookup s (metadataOf ids.length (a.kwargs ++ [(s, PyVal.arr v)])) =
      some (PyVal.arr v) := by
    have hmn : alookup s (metadataOf ids.length a.kwargs) = none :=
      alookup_filter_none s (isMetaEntry ids.length) a.kwargs hnew
    rw [metadataOf_append, alookup_append_none s _ _ hmn]
    simp [metadataOf, isMetaEntry, hce, alookup]
  have hhtl : alookup s (haloTableOf ids.length a.kwargs) = none :=
    alookup_haloTable_none ids.length s a.kwargs hnew
  refine ⟨{ halo_table := haloTableOf ids.length a.kwargs, Lbox := L,
            particle_mass := P, redshift := z,
            metadata := metadataOf ids.length (a.kwargs ++ [(s, PyVal.arr v)]),
            ptcl_table := pt, log_entry := none },
    ?_, hmd, hhtl, metaWarn_contains s⟩
  simp only [UserSuppliedHaloCatalog, buildCatalog, extendKwargs, hL, hP, hzf, hidx,
    hht, hhx, hhy, hhz, hm, hbc, hpt, hws2]

/-- C1 witness: adding the keyword `s` with a length-2 array to the fixture
call succeeds with exactly one "interpreted as metadata" warning, the array
stored as metadata and not as a halo column. -/
theorem C1_halo_prefix_warning_witness :
    ∃ c, UserSuppliedHaloCatalog (extendKwargs wArgs "s" (.arr [7, 8])) =
        .ok (c, [metaWarnMsg "s"]) ∧
      alookup "s" c.metadata = some (.arr [7, 8]) ∧
      alookup "s" c.halo_table = none ∧
      strContains (metaWarnMsg "s") "interpreted as metadata" = true :=
  C1_halo_prefix_warning wArgs (.int 200) (.int 100) 0 [0, 1] [1, 2] [3, 4] [5, 6] none
    "s" [7, 8] rfl rfl rfl (by decide) (by decide) (by decide) (by decide) (by decide)
    (by decide) rfl (by decide) (by decide) (by decide) (by decide)

end Halotools

namespace Halotools

/-- C6: `add_halocat_to_cache` path checks — a missing parent directory
fails with `PathNotFoundError`; an existing `fname` without `overwrite`
fails with `FileExistsConflict` (with no extension hypothesis, so the
existence check precedes the extension check); with `overwrite` true the
existence conflict is never raised; and past the existence stage an fname
not ending in `.hdf5` fails with `InvalidFileExtension`. -/
theorem C6_cache_path_checks (c : HaloCatalog) (st : CacheState) (r : CacheArgs) :
    (st.fs.dirs.contains (dirname r.fname) = false →
      add_halocat_to_cache c st r = .error ⟨dirMsg⟩) ∧
    (st.fs.dirs.contains (dirname r.fname) = true →
      st.fs.files.contains r.fname = true → r.overwrite = false →
      add_halocat_to_cache c st r = .error ⟨existsMsg⟩) ∧
    (r.overwrite = true → add_halocat_to_cache c st r ≠ .error ⟨existsMsg⟩) ∧
    (st.fs.dirs.contains (dirname r.fname) = true →
      (st.fs.files.contains r.fname = false ∨ r.overwrite = true) →
      strEnds r.fname ".hdf5" = false →
      add_halocat_to_cache c st r = .error ⟨extMsg⟩) := by
  refine ⟨?_, ?_, ?_, ?_⟩
  · intro hd
    simp only [add_halocat_to_cache, hd]
  · intro hd hf hov
    simp only [add_halocat_to_cache, hd, hf, hov, Bool.not_false, Bool.and_true]
  · intro hov heq
    rcases hd : st.fs.dirs.contains (dirname r.fname) with _ | _
    · simp only [add_halocat_to_cache, hd] at heq
      exact absurd heq (by decide)
    · rcases he : strEnds r.fname ".hdf5" with _ | _
      · simp only [add_halocat_to_cache, hd, hov, Bool.not_true, Bool.and_false, he] at heq
        exact absurd heq (by decide)
      · rcases h1 : pyStr r.simname with _ | sim
        · simp only [add_halocat_to_cache, hd, hov, Bool.not_true, Bool.and_false, he,
            h1] at heq
          exact absurd heq (by decide)
        · rcases h2 : pyStr r.halo_finder with _ | hf
          · simp only [add_halocat_to_cache, hd, hov, Bool.not_true, Bool.and_false, he,
              h1, h2] at heq
            exact absurd heq (by decide)
          · rcases h3 : pyStr r.version_name with _ | vn
            · simp only [add_halocat_to_cache, hd, hov, Bool.not_true, Bool.and_false,
                he, h1, h2, h3] at heq
              exact absurd heq (by decide)
            · rcases h4 : pyStr r.processing_notes with _ | pn
              · simp only [add_halocat_to_cache, hd, hov, Bool.not_true, Bool.and_false,
                  he, h1, h2, h3, h4] at heq
                exact absurd heq (by decide)
              · rcases h5 : firstBadKw r.extra_metadata with _ | k
                · simp only [add_halocat_to_cache, hd, hov, Bool.not_true, Bool.and_false,
                    he, h1, h2, h3, h4, h5] at heq
                  cases heq
                · simp only [add_halocat_to_cache, hd, hov, Bool.not_true, Bool.and_false,
                    he, h1, h2, h3, h4, h5] at heq
                  injection heq with heq
                  exact kwMsg_ne_existsMsg k (congrArg HalotoolsError.message heq)
  · intro hd hdis he
    rcases hdis with hf | hov
    · simp only [add_halocat_to_cache, hd, hf, Bool.false_and, he]
    · simp only [add_halocat_to_cache, hd, hov, Bool.not_true, Bool.and_false, he]

/-- C6 witness: the concrete scenarios of `test_add_halocat_to_cache1`-`3`:
missing directory, existing extensionless file without overwrite (conflict
reported before the extension check), overwrite never raising the conflict,
and the extension error with overwrite set. -/
theorem C6_cache_path_checks_witness :
    (add_halocat_to_cache wCat { fs := { dirs := [], files := [] }, log := [] }
      wCacheArgs = .error ⟨dirMsg⟩) ∧
    (add_halocat_to_cache wCat wStateAbc wCacheArgsAbc = .error ⟨existsMsg⟩) ∧
    (add_halocat_to_cache wCat wStateAbc { wCacheArgsAbc with overwrite := true } ≠
      .error ⟨existsMsg⟩) ∧
    (add_halocat_to_cache wCat wStateAbc { wCacheArgsAbc with overwrite := true } =
      .error ⟨extMsg⟩) :=
  ⟨(C6_cache_path_checks wCat _ wCacheArgs).1 (by decide),
   (C6_cache_path_checks wCat wStateAbc wCacheArgsAbc).2.1 (by decide) (by decide) rfl,
   (C6_cache_path_checks wCat wStateAbc _).2.2.1 rfl,
   (C6_cache_path_checks wCat wStateAbc _).2.2.2 (by decide) (Or.inr rfl) (by decide)⟩

/-- C7: `add_halocat_to_cache` string-coercion checks — if any of the four
positional identifiers is not representable as a string the registration
fails with the `MetadataTypeError` message "must all be strings."; if they
are all representable but an extra metadata keyword is not, it fails with
an error containing "keyword is not representable as a string." and naming
that keyword, which genuinely carries an unrepresentable value. -/
theorem C7_cache_string_checks (c : HaloCatalog) (st : CacheState) (r : CacheArgs)
    (hd : st.fs.dirs.contains (dirname r.fname) = true)
    (hconf : (st.fs.files.contains r.fname && !r.overwrite) = false)
    (he : strEnds r.fname ".hdf5" = true) :
    ((pyStr r.simname = none ∨ pyStr r.halo_finder = none ∨
      pyStr r.version_name = none ∨ pyStr r.processing_notes = none) →
      add_halocat_to_cache c st r = .error ⟨stringsMsg⟩ ∧
      strContains stringsMsg "must all be strings." = true) ∧
    (∀ sim hf vn pn k, pyStr r.simname = some sim → pyStr r.halo_finder = some hf →
      pyStr r.version_name = some vn → pyStr r.processing_notes = some pn →
      firstBadKw r.extra_metadata = some k →
      add_halocat_to_cache c st r = .error ⟨kwMsg k⟩ ∧
      (∃ v, (k, v) ∈ r.extra_metadata ∧ pyStr v = none) ∧
      strContains (kwMsg k) "keyword is not representable as a string." = true ∧
      strContains (kwMsg k) k = true) := by
  constructor
  · intro hnone
    constructor
    · rcases h1 : pyStr r.simname with _ | sim
      · simp only [add_halocat_to_cache, hd, hconf, he, h1]
      · rcases h2 : pyStr r.halo_finder with _ | hf
        · simp only [add_halocat_to_cache, hd, hconf, he, h1, h2]
        · rcases h3 : pyStr r.version_name with _ | vn
          · simp only [add_halocat_to_cache, hd, hconf, he, h1, h2, h3]
          · rcases h4 : pyStr r.processing_notes with _ | pn
            · simp only [add_halocat_to_cache, hd, hconf, he, h1, h2, h3, h4]
            · exfalso
              rcases hnone with hc | hc | hc | hc
              · rw [h1] at hc; cases hc
              · rw [h2] at hc; cases hc
              · rw [h3] at hc; cases hc
              · rw [h4] at hc; cases hc
    · decide
  · intro sim hf vn pn k h1 h2 h3 h4 hk
    refine ⟨?_, firstBadKw_some r.extra_metadata k hk, kwMsg_contains_pattern k,
      kwMsg_contains_keyword k⟩
    simp only [add_halocat_to_cache, hd, hconf, he, h1, h2, h3, h4, hk]

/-- C7 witness: the concrete scenarios of `test_add_halocat_to_cache4`-`5`:
an unstringifiable `simname` fails with "must all be strings."; an
unstringifiable extra metadata keyword fails naming that keyword. -/
theorem C7_cache_string_checks_witness :
    (add_halocat_to_cache wCat wState { wCacheArgs with simname := .blob } =
      .error ⟨stringsMsg⟩ ∧
     strContains stringsMsg "must all be strings." = true) ∧
    (add_halocat_to_cache wCat wState { wCacheArgs with
        extra_metadata := [("some_more_metadata", .blob)] } =
      .error ⟨kwMsg "some_more_metadata"⟩ ∧
     (∃ v, ("some_more_metadata", v) ∈
        [(("some_more_metadata" : String), PyVal.blob)] ∧ pyStr v = none) ∧
     strContains (kwMsg "some_more_metadata")
        "keyword is not representable as a string." = true ∧
     strContains (kwMsg "some_more_metadata") "some_more_metadata" = true) :=
  ⟨(C7_cache_string_checks wCat wState { wCacheArgs with simname := .blob }
      (by decide) (by decide) (by decide)).1 (Or.inl rfl),
   (C7_cache_string_checks wCat wState { wCacheArgs with
        extra_metadata := [("some_more_metadata", .blob)] }
      (by decide) (by decide) (by decide)).2 "dummy_simname" "dummy_halo_finder"
      "dummy_version_name" "dummy processing notes" "some_more_metadata"
      rfl rfl rfl rfl rfl⟩

end Halotools

namespace Halotools

/-- C8: a successful `add_halocat_to_cache` appends a `CacheLogEntry` keyed
by (simname, halo_finder, version_name, redshift, fname) to the log and
stores it as `log_entry` on the catalog; removing that same 5-tuple key
with `raise_non_existence_exception` true succeeds, excludes the entry from
the log, and with file deletion requested removes the backing file. -/
theorem C8_cache_roundtrip (c : HaloCatalog) (st : CacheState) (r : CacheArgs)
    (sim hf vn pn : String)
    (hd : st.fs.dirs.contains (dirname r.fname) = true)
    (hconf : (st.fs.files.contains r.fname && !r.overwrite) = false)
    (he : strEnds r.fname ".hdf5" = true)
    (h1 : pyStr r.simname = some sim) (h2 : pyStr r.halo_finder = some hf)
    (h3 : pyStr r.version_name = some vn) (h4 : pyStr r.processing_notes = some pn)
    (hkw : firstBadKw r.extra_metadata = none) :
    ∃ c2 st2, add_halocat_to_cache c st r = .ok (c2, st2) ∧
      ∃ e, c2.log_entry = some e ∧ e ∈ st2.log ∧
        e.simname = sim ∧ e.halo_finder = hf ∧ e.version_name = vn ∧
        e.redshift = c.redshift ∧ e.fname = r.fname ∧
        ∃ st3, remove_entry_from_cache_log st2 e.simname e.halo_finder e.version_name
            e.redshift e.fname true true true = .ok st3 ∧
          e ∉ st3.log ∧ e.fname ∉ st3.fs.files := by
  refine ⟨{ c with log_entry := some ⟨sim, hf, vn, c.redshift, r.fname⟩ },
    { fs := { dirs := st.fs.dirs, files := insertFile r.fname st.fs.files },
      log := st.log ++ [⟨sim, hf, vn, c.redshift, r.fname⟩] },
    ?_, ⟨sim, hf, vn, c.redshift, r.fname⟩, rfl, ?_, rfl, rfl, rfl, rfl, rfl, ?_⟩
  · simp only [add_halocat_to_cache, hd, hconf, he, h1, h2, h3, h4, hkw]
  · simp
  · have hany : (st.log ++ [(⟨sim, hf, vn, c.redshift, r.fname⟩ : CacheLogEntry)]).any
        (keyMatches sim hf vn c.redshift r.fname) = true := by
      simp [keyMatches]
    refine ⟨{ fs := { dirs := st.fs.dirs,
                      files := (insertFile r.fname st.fs.files).filter
                        (fun f => !(decide (f = r.fname))) },
              log := (st.log ++ [(⟨sim, hf, vn, c.redshift, r.fname⟩ : CacheLogEntry)]).filter
                (fun e2 => !(keyMatches sim hf vn c.redshift r.fname e2)) },
      ?_, ?_, ?_⟩
    · simp only [remove_entry_from_cache_log, hany, Bool.not_true, Bool.and_false]
    · intro hmem
      have hp := (List.mem_filter.mp hmem).2
      simp [keyMatches] at hp
    · intro hmem
      have hp := (List.mem_filter.mp hmem).2
      simp at hp

/-- C8 witness: registering the fixture catalog under the dummy names of
`test_add_halocat_to_cache6` and then removing it by its own key. -/
theorem C8_cache_roundtrip_witness :
    ∃ c2 st2, add_halocat_to_cache wCat wState wCacheArgs = .ok (c2, st2) ∧
      ∃ e, c2.log_entry = some e ∧ e ∈ st2.log ∧
        e.simname = "dummy_simname" ∧ e.halo_finder = "dummy_halo_finder" ∧
        e.version_name = "dummy_version_name" ∧ e.redshift = wCat.redshift ∧
        e.fname = "/tmp/cache/abc.hdf5" ∧
        ∃ st3, remove_entry_from_cache_log st2 e.simname e.halo_finder e.version_name
            e.redshift e.fname true true true = .ok st3 ∧
          e ∉ st3.log ∧ e.fname ∉ st3.fs.files :=
  C8_cache_roundtrip wCat wState wCacheArgs "dummy_simname" "dummy_halo_finder"
    "dummy_version_name" "dummy processing notes" (by decide) (by decide) (by decide)
    rfl rfl rfl rfl rfl

/-- C9: all validation and registration failures are instances of the one
exception type `HalotoolsError`, which is fully determined by its message
string (one constructor, one field), and the spec's distinct error kinds
remain distinguishable because their message texts are pairwise distinct. -/
theorem C9_single_exception_type :
    (∀ e1 e2 : HalotoolsError, e1.message = e2.message → e1 = e2) ∧
    (∀ (a : ConstructArgs) (e : HalotoolsError),
      UserSuppliedHaloCatalog a = .error e → e = ⟨e.message⟩) ∧
    (∀ (c : HaloCatalog) (st : CacheState) (r : CacheArgs) (e : HalotoolsError),
      add_halocat_to_cache c st r = .error e → e = ⟨e.message⟩) ∧
    [dirMsg, existsMsg, extMsg, stringsMsg, redshiftTypeMsg, ptclTypeMsg,
      insufficientMsg, entryNotFoundMsg, noMassColMsg].Nodup := by
  refine ⟨?_, ?_, ?_, ?_⟩
  · intro e1 e2 h
    cases e1
    cases e2
    simpa using h
  · intro a e _
    cases e
    rfl
  · intro c st r e _
    cases e
    rfl
  · decide

/-- C9 witness: injectivity of the message applied at a concrete error, and
a concrete construction failure is the error determined by its message. -/
theorem C9_single_exception_type_witness :
    ((⟨dirMsg⟩ : HalotoolsError) = ⟨dirMsg⟩) ∧
    ((⟨redshiftTypeMsg⟩ : HalotoolsError) =
      ⟨HalotoolsError.message ⟨redshiftTypeMsg⟩⟩) :=
  ⟨C9_single_exception_type.1 ⟨dirMsg⟩ ⟨dirMsg⟩ rfl,
   C9_single_exception_type.2.1 { wArgs with redshift := some (.str "1.0") }
     ⟨redshiftTypeMsg⟩ (by decide)⟩

end Halotools
